import Mathlib

/-!
# Verification of the Helm chart inflation generator

A shallow embedding, in Lean 4, of the kustomize `HelmChartInflationGenerator`
plugin (`plugin/builtin/helmchartinflationgenerator/HelmChartInflationGenerator.go`),
together with theorems settling the specification claims about it.

Modelling conventions:

* Go strings and the raw bytes of files are modelled as `String`
  (the code never inspects the byte encoding of values-file contents).
* File-system paths are slash-separated strings; `filepath.Join` is modelled
  by `joinP` (separator concatenation, no `Clean` normalisation — inputs are
  assumed already clean) and `filepath.IsAbs` by `isAbsP` (leading slash).
* Fallible Go calls return `Except String α` carrying the error message.
* External collaborators (the helm binary, `os.Stat`, the sandboxed loader,
  the resmap factory, the kyaml parser) are modelled as explicit oracle
  functions passed in; each oracle is an arbitrary deterministic function,
  so theorems quantifying over oracles hold for every possible behaviour of
  the collaborator.
* The structured values trees handled by `kyaml` are modelled by the nested
  inductive `YNode` (`map` nodes over association lists, and `scalar` leaves
  standing for every non-map node, sequences included — the claims under
  verification never exercise sequence-vs-sequence merging).
-/

namespace HelmPlugin

/-! ## Paths -/

/-- Model of `filepath.Join` on two segments, for already-clean
slash-separated paths: drops an empty side, otherwise inserts `/`. -/
def joinP (a b : String) : String :=
  if a = "" then b else if b = "" then a else a ++ "/" ++ b

/-- Model of `filepath.IsAbs`: the path begins with a slash. -/
def isAbsP (p : String) : Bool :=
  p.toList.headD ' ' == '/'

/-! ## Values trees (`kyaml.RNode` values) -/

/-- A structured values tree.  `map` carries an association list of fields in
document order; `scalar` stands for any non-map node (scalars and, in this
development, sequences — see the module docstring). -/
inductive YNode where
  | scalar : String → YNode
  | map : List (String × YNode) → YNode

/-- The fields of a values document (`map[string]interface` in Go). -/
abbrev YMap := List (String × YNode)

/-- First-match association-list lookup on the fields of a map node. -/
def lookupY : YMap → String → Option YNode
  | [], _ => none
  | (k, v) :: rest, key => if k = key then some v else lookupY rest key

/-- Model of `RNode.Copy`: a deep copy, which is the identity in the value
semantics of the embedding. -/
def copyNode (n : YNode) : YNode := n

mutual

/-- Modelled from the spec: `merge2.Merge src dest` combines two structured
trees; values from `src` override values in `dest`; map-vs-map conflicts
merge recursively, any other conflict (scalar involved, or type mismatch)
resolves in favour of `src`. -/
def mergeNodes : YNode → YNode → YNode
  | YNode.map s, YNode.map d =>
      YNode.map (mergeInto s d ++ s.filter (fun e => (lookupY d e.1).isNone))
  | s, _ => s
termination_by _ b => sizeOf b

/-- Field-wise pass of `mergeNodes` over the destination fields: a field
also present in `src` is merged recursively, a destination-only field is
kept as is. -/
def mergeInto (s : YMap) : YMap → YMap
  | [] => []
  | (k, v) :: rest =>
    (match lookupY s k with
     | some sv => (k, mergeNodes sv v)
     | none => (k, v)) :: mergeInto s rest
termination_by d => sizeOf d

end

mutual

/-- Modelled from the spec: `yaml.Marshal` of a values tree.  A concrete
injective stand-in serialisation (the claims only need that the payload is
serialised as-is, not the YAML surface syntax). -/
def serializeYNode : YNode → String
  | YNode.scalar s => "s(" ++ s ++ ")"
  | YNode.map es => "m(" ++ serializeEntries es ++ ")"
termination_by n => sizeOf n

/-- Serialisation of the fields of a map node, in order. -/
def serializeEntries : YMap → String
  | [] => ""
  | (k, v) :: rest => k ++ ":" ++ serializeYNode v ++ ";" ++ serializeEntries rest
termination_by es => sizeOf es

end

/-! ## The version gate (`checkHelmVersion`)

The Go code scans the probe output with the regexp `v?\d+(\.\d+)+`
(leftmost match, `FindString`) and accepts exactly major version `3`.
The scanner below implements that exact pattern directly: at each position,
an optional `v` followed by a greedy digit run and one or more greedy
`.digits` groups; positions are tried left to right.  For this pattern the
greedy scan coincides with the backtracking semantics of Go's regexp engine
(shortening a digit run can never enable a following `.`). -/

/-- Greedy matcher for `(\.\d+)+` (zero or more groups).  The fuel argument
makes the recursion structural; it is instantiated with the input length,
which suffices because every group consumes at least two characters. -/
def verGroupsF : Nat → List Char → List Char
  | 0, _ => []
  | fuel + 1, cs =>
    match cs with
    | '.' :: rest =>
      let ds := rest.takeWhile Char.isDigit
      if ds.isEmpty then []
      else '.' :: (ds ++ verGroupsF fuel (rest.dropWhile Char.isDigit))
    | _ => []

/-- Greedy matcher for `(\.\d+)+`, zero-or-more form. -/
def verGroups (cs : List Char) : List Char := verGroupsF cs.length cs

/-- Matcher for `\d+(\.\d+)+` anchored at the start of `cs`:
a nonempty digit run followed by at least one `.digits` group. -/
def matchDigitsGroups (cs : List Char) : Option (List Char) :=
  let ds := cs.takeWhile Char.isDigit
  if ds.isEmpty then none
  else
    let g := verGroups (cs.dropWhile Char.isDigit)
    if g.isEmpty then none else some (ds ++ g)

/-- Matcher for `v?\d+(\.\d+)+` anchored at the start of the input. -/
def matchVersionAt : List Char → Option (List Char)
  | 'v' :: rest => (matchDigitsGroups rest).map (fun m => 'v' :: m)
  | cs => matchDigitsGroups cs

/-- Model of `regexp.FindString` for the version pattern: the match at the
leftmost position where one exists, `none` when there is none (Go returns
the empty string in that case, which the caller treats as failure). -/
def findFrom : List Char → Option (List Char)
  | [] => none
  | c :: rest =>
    match matchVersionAt (c :: rest) with
    | some m => some m
    | none => findFrom rest

/-- Model of `if v[0] == 'v' { v = v[1:] }`. -/
def stripV : List Char → List Char
  | 'v' :: rest => rest
  | cs => cs

/-- Model of `strings.Split(v, ".")[0]`: the prefix before the first dot. -/
def majorOf (cs : List Char) : List Char := cs.takeWhile (fun c => c ≠ '.')

/-- The pure part of `checkHelmVersion`: the decision taken on the text
reported by the `helm version -c --short` probe. -/
def checkVersionString (stdout : String) : Except String Unit :=
  match findFrom stdout.toList with
  | none => Except.error ("cannot find version string in " ++ stdout)
  | some v =>
    let v2 := stripV v
    if String.mk (majorOf v2) ≠ "3" then
      Except.error ("this plugin requires helm V3 but got v" ++ String.mk v2)
    else Except.ok ()

/-! ## Configuration data model

Mirrors `types.HelmConfig` (process-wide settings), `types.HelmGlobals` and
`types.HelmChart` (per-invocation configuration), and the plugin struct that
embeds the latter two together with the scratch directory `tmpDir`. -/

/-- Process-wide helm settings (`types.HelmConfig`), fed from CLI flags. -/
structure HelmConfig where
  enabled : Bool
  command : String
  kubeVersion : String
  apiVersions : List String
  debug : Bool

/-- Per-invocation global fields (`types.HelmGlobals`). -/
structure HelmGlobals where
  chartHome : String
  configHome : String

/-- Per-invocation chart fields (`types.HelmChart`), restricted to the
fields the plugin reads. -/
structure HelmChart where
  name : String
  version : String
  repo : String
  valuesFile : String
  additionalValuesFiles : List String
  valuesInline : YMap
  valuesMerge : String
  kubeVersion : String
  apiVersions : List String
  debug : Bool

/-- The plugin struct: embedded globals and chart fields plus `tmpDir`
(`""` when the scratch directory has not been created yet, as in Go). -/
structure PluginState where
  globals : HelmGlobals
  chart : HelmChart
  tmpDir : String

/-- The per-invocation configuration payload handed to `Config`.  A `none`
field is absent from the YAML document; `yaml.Unmarshal` into a non-zero
struct overwrites exactly the fields present in the document and leaves the
rest untouched, which `unmarshalConfig` reproduces. -/
structure ConfigPayload where
  name : Option String := none
  version : Option String := none
  repo : Option String := none
  chartHome : Option String := none
  configHome : Option String := none
  valuesFile : Option String := none
  additionalValuesFiles : Option (List String) := none
  valuesInline : Option YMap := none
  valuesMerge : Option String := none
  kubeVersion : Option String := none
  apiVersions : Option (List String) := none
  debug : Option Bool := none

/-- Model of `yaml.Unmarshal(config, p)`: fields present in the payload
overwrite the corresponding plugin fields, absent fields are kept. -/
def unmarshalConfig (c : ConfigPayload) (p : PluginState) : PluginState :=
  { globals :=
      { chartHome := c.chartHome.getD p.globals.chartHome
        configHome := c.configHome.getD p.globals.configHome }
    chart :=
      { name := c.name.getD p.chart.name
        version := c.version.getD p.chart.version
        repo := c.repo.getD p.chart.repo
        valuesFile := c.valuesFile.getD p.chart.valuesFile
        additionalValuesFiles :=
          c.additionalValuesFiles.getD p.chart.additionalValuesFiles
        valuesInline := c.valuesInline.getD p.chart.valuesInline
        valuesMerge := c.valuesMerge.getD p.chart.valuesMerge
        kubeVersion := c.kubeVersion.getD p.chart.kubeVersion
        apiVersions := c.apiVersions.getD p.chart.apiVersions
        debug := c.debug.getD p.chart.debug }
    tmpDir := p.tmpDir }

/-- The sandboxed loader interface: its root directory and
`load : path → bytes or error`. -/
structure Loader where
  root : String
  load : String → Except String String

/-- `types.HelmDefaultHome`, the default chart home. -/
def HelmDefaultHome : String := "charts"

def valuesMergeOptionMerge : String := "merge"

def valuesMergeOptionOverride : String := "override"

def valuesMergeOptionReplace : String := "replace"

def legalMergeOptions : List String :=
  [valuesMergeOptionMerge, valuesMergeOptionOverride, valuesMergeOptionReplace]

/-- `errIfIllegalValuesMerge`: default an unset merge policy to `override`,
accept a legal one, reject anything else. -/
def errIfIllegalValuesMerge (p : PluginState) : Except String PluginState :=
  if p.chart.valuesMerge = "" then
    Except.ok { p with chart.valuesMerge := valuesMergeOptionOverride }
  else if legalMergeOptions.contains p.chart.valuesMerge then
    Except.ok p
  else
    Except.error "valuesMerge must be one of [merge override replace]"

/-- The local `chartHome` variable of `absChartHome`: the configured chart
home made absolute against the loader root. -/
def effectiveChartHome (root : String) (p : PluginState) : String :=
  if isAbsP p.globals.chartHome then p.globals.chartHome
  else joinP root p.globals.chartHome

/-- `absChartHome`: the chart home made absolute against the loader root,
extended with `<name>-<version>` when a version is set. -/
def absChartHome (root : String) (p : PluginState) : String :=
  if p.chart.version ≠ "" then
    joinP (effectiveChartHome root p) (p.chart.name ++ "-" ++ p.chart.version)
  else effectiveChartHome root p

/-- The `AdditionalValuesFiles` loop of `validateArgs`: each path is loaded
through the sandboxed loader (enforcing root restrictions) and, on success,
rewritten to `<loader root>/<path>`. -/
def resolveAdditionalValuesFiles (ldr : Loader) : List String → Except String (List String)
  | [] => Except.ok []
  | f :: rest =>
    match ldr.load f with
    | Except.error e => Except.error ("could not load additionalValuesFile: " ++ e)
    | Except.ok _ =>
      match resolveAdditionalValuesFiles ldr rest with
      | Except.error e => Except.error e
      | Except.ok tail => Except.ok (joinP ldr.root f :: tail)

/-- `establishTmpDir` as called during configuration (`mkTemp` models the
outcome of `os.MkdirTemp`, `none` being failure). -/
def establishTmpDirP (mkTemp : Option String) (p : PluginState) : Except String PluginState :=
  if p.tmpDir ≠ "" then Except.ok p
  else
    match mkTemp with
    | none => Except.error "MkdirTemp failed"
    | some d => Except.ok { p with tmpDir := d }

/-- The `ChartHome` defaulting block of `validateArgs`. -/
def defaultChartHome (p : PluginState) : PluginState :=
  if p.globals.chartHome = "" then { p with globals.chartHome := HelmDefaultHome }
  else p

/-- The `ValuesFile` defaulting block of `validateArgs`:
`<absChartHome>/<name>/values.yaml` when unset. -/
def defaultValuesFile (root : String) (p : PluginState) : PluginState :=
  if p.chart.valuesFile = "" then
    { p with chart.valuesFile :=
        joinP (joinP (absChartHome root p) p.chart.name) "values.yaml" }
  else p

/-- The `ConfigHome` defaulting block of `validateArgs`: point it inside a
freshly established scratch directory when unset. -/
def defaultConfigHome (mkTemp : Option String) (p : PluginState) :
    Except String PluginState :=
  if p.globals.configHome = "" then
    match establishTmpDirP mkTemp p with
    | Except.error _ => Except.error "unable to create tmp dir for HELM_CONFIG_HOME"
    | Except.ok p5 => Except.ok { p5 with globals.configHome := joinP p5.tmpDir "helm" }
  else Except.ok p

/-- `validateArgs`: reject an empty chart name, default the chart home and
the values file, resolve the additional values files, validate the merge
policy, and default `ConfigHome` into a fresh scratch directory. -/
def validateArgs (ldr : Loader) (mkTemp : Option String) (p0 : PluginState) :
    Except String PluginState :=
  if p0.chart.name = "" then Except.error "chart name cannot be empty"
  else
    match resolveAdditionalValuesFiles ldr
        (defaultValuesFile ldr.root (defaultChartHome p0)).chart.additionalValuesFiles with
    | Except.error e => Except.error e
    | Except.ok files =>
      match errIfIllegalValuesMerge
          { defaultValuesFile ldr.root (defaultChartHome p0) with
            chart.additionalValuesFiles := files } with
      | Except.error e => Except.error e
      | Except.ok p4 => defaultConfigHome mkTemp p4

/-- The `CLI args takes precedence` block of `Config`: copy each non-empty
process-level setting over the corresponding chart field. -/
def applyCliOverrides (hc : HelmConfig) (p0 : PluginState) : PluginState :=
  let p1 :=
    if hc.kubeVersion ≠ "" then { p0 with chart.kubeVersion := hc.kubeVersion }
    else p0
  let p2 :=
    if hc.apiVersions.length ≠ 0 then { p1 with chart.apiVersions := hc.apiVersions }
    else p1
  if hc.debug then { p2 with chart.debug := hc.debug } else p2

/-- `Config`: check the feature flag and the helm command, apply the
process-level overrides (the code does this *before* unmarshalling the
per-invocation payload), unmarshal the payload, then validate. -/
def Config (gen : Option HelmConfig) (ldr : Loader) (mkTemp : Option String)
    (p0 : PluginState) (config : ConfigPayload) : Except String PluginState :=
  match gen with
  | none => Except.error "unable to access general config"
  | some hc =>
    if !hc.enabled then Except.error "must specify --enable-helm"
    else if hc.command = "" then Except.error "must specify --helm-command"
    else validateArgs ldr mkTemp (unmarshalConfig config (applyCliOverrides hc p0))

/-! ## The generation pipeline (`Generate`)

External effects are split into an oracle record (arbitrary deterministic
behaviours of the collaborators) and an `Fs` record tracking the observable
effects of one invocation: whether the scratch directory currently exists on
disk, the files written into it, and the log of paths read through the
sandboxed loader. -/

/-- Classified fatal outcomes of `Generate`, each carrying the message or
path the Go error embeds. -/
inductive GenError where
  | versionCheck : String → GenError
  | noRepoForPull : String → GenError
  | pullFailed : String → GenError
  | valuesFailed : String → GenError
  | renderFailed : String → GenError
  | outputRead : String → GenError
  | rnodeConvert : String → GenError
  | outputParse : String → GenError

/-- The external collaborators of one invocation.  `R` is the host's
resource-collection type, `N` its parsed-node type. -/
structure Oracles (R N : Type) where
  runHelm : List String → Except String String
  statIsDir : String → Option Bool
  parseYaml : String → Except String YNode
  fromBytes : String → Except String R
  readNodes : String → Except String (List N)
  fromNodes : List N → Except String R
  mkTemp : Option String
  renderArgs : String → String → List String

/-- Observable file-system effects of one invocation. -/
structure Fs where
  tmpDirOnDisk : Bool
  written : List (String × String)
  loads : List String

/-- A `Loader().Load` call, recorded in the load log. -/
def loadLogged (ldr : Loader) (path : String) (fs : Fs) :
    Except String String × Fs :=
  (ldr.load path, { fs with loads := path :: fs.loads })

/-- `establishTmpDir` during generation: creates the scratch directory on
first need and records that it now exists on disk. -/
def establishTmpDir (mkTemp : Option String) (p : PluginState) (fs : Fs) :
    Except String Unit × PluginState × Fs :=
  if p.tmpDir ≠ "" then (Except.ok (), p, fs)
  else
    match mkTemp with
    | none => (Except.error "MkdirTemp failed", p, fs)
    | some d => (Except.ok (), { p with tmpDir := d }, { fs with tmpDirOnDisk := true })

/-- `writeValuesBytes`: write the effective values bytes to
`<tmpDir>/<name>-kustomize-values.yaml`, creating the scratch directory if
needed, and return the absolute path written. -/
def writeValuesBytes (mkTemp : Option String) (b : String) (p : PluginState) (fs : Fs) :
    Except String String × PluginState × Fs :=
  match establishTmpDir mkTemp p fs with
  | (Except.error _, p', fs') =>
    (Except.error "cannot create tmp dir to write helm values", p', fs')
  | (Except.ok _, p', fs') =>
    let path := joinP p'.tmpDir (p'.chart.name ++ "-kustomize-values.yaml")
    (Except.ok path, p', { fs' with written := (path, b) :: fs'.written })

/-- `copyValuesFile`: load the base values source and write its bytes
unchanged into the scratch directory. -/
def copyValuesFile (ldr : Loader) (mkTemp : Option String) (p : PluginState) (fs : Fs) :
    Except String String × PluginState × Fs :=
  match loadLogged ldr p.chart.valuesFile fs with
  | (Except.error e, fs') => (Except.error e, p, fs')
  | (Except.ok b, fs') => writeValuesBytes mkTemp b p fs'

/-- The pure merge step of `replaceValuesInline`: the `switch` on the merge
policy around `merge2.Merge`.  For `override` the inline values are the
overriding source against a copy of the parsed base; for `merge` the parsed
base is the overriding source against a copy of the inline values.  The Go
switch has no default case; its only caller guards it to these two
policies, so the fallback arm is unreachable there. -/
def mergeOut (policy : String) (chValues : YNode) (inl : YMap) : Option YNode :=
  if policy = valuesMergeOptionOverride then
    some (mergeNodes (YNode.map inl) (copyNode chValues))
  else if policy = valuesMergeOptionMerge then
    some (mergeNodes chValues (copyNode (YNode.map inl)))
  else none

/-- The merge-then-extract core of `replaceValuesInline`: merge per the
policy and read the result back as a map (`outValues.Map()`), failing when
the merged node is not a map. -/
def replaceValuesCore (policy : String) (chValues : YNode) (inl : YMap) :
    Except String YMap :=
  match mergeOut policy chValues inl with
  | none => Except.error "could not merge values"
  | some out =>
    match out with
    | YNode.map m => Except.ok m
    | _ => Except.error "could not parse merged values into map"

/-- `replaceValuesInline`: load and parse the base values source, merge it
with the inline values per the policy, and replace the in-memory inline
values by the merged map. -/
def replaceValuesInline (ldr : Loader) (parseYaml : String → Except String YNode)
    (p : PluginState) (fs : Fs) : Except String Unit × PluginState × Fs :=
  match loadLogged ldr p.chart.valuesFile fs with
  | (Except.error e, fs') => (Except.error e, p, fs')
  | (Except.ok pValues, fs') =>
    match parseYaml pValues with
    | Except.error e =>
      (Except.error ("could not parse values file into rnode: " ++ e), p, fs')
    | Except.ok chValues =>
      match replaceValuesCore p.chart.valuesMerge chValues p.chart.valuesInline with
      | Except.error e => (Except.error e, p, fs')
      | Except.ok mapValues =>
        (Except.ok (), { p with chart.valuesInline := mapValues }, fs')

/-- `createNewMergedValuesFile`: merge the base into the inline values for
the `merge` and `override` policies (for `replace` the inline payload is
kept as is), serialise the resulting inline values, and write them. -/
def createNewMergedValuesFile (ldr : Loader) (parseYaml : String → Except String YNode)
    (mkTemp : Option String) (p : PluginState) (fs : Fs) :
    Except String String × PluginState × Fs :=
  match
    (if p.chart.valuesMerge = valuesMergeOptionMerge ∨
        p.chart.valuesMerge = valuesMergeOptionOverride then
      replaceValuesInline ldr parseYaml p fs
    else (Except.ok (), p, fs)) with
  | (Except.error e, p', fs') => (Except.error e, p', fs')
  | (Except.ok _, p', fs') =>
    writeValuesBytes mkTemp (serializeYNode (YNode.map p'.chart.valuesInline)) p' fs'

/-- The values dispatch of `Generate`: merge when inline values are
present, plain copy otherwise. -/
def valuesStep (ldr : Loader) (parseYaml : String → Except String YNode)
    (mkTemp : Option String) (p : PluginState) (fs : Fs) :
    Except String String × PluginState × Fs :=
  if 0 < p.chart.valuesInline.length then
    createNewMergedValuesFile ldr parseYaml mkTemp p fs
  else copyValuesFile ldr mkTemp p fs

/-- `checkHelmVersion`: run the version probe and gate on its output. -/
def checkHelmVersion (runHelm : List String → Except String String) :
    Except String Unit :=
  match runHelm ["version", "-c", "--short"] with
  | Except.error e => Except.error e
  | Except.ok out => checkVersionString out

/-- The path probed by the local chart existence check. -/
def chartProbePath (root : String) (p : PluginState) : String :=
  joinP (absChartHome root p) p.chart.name

/-- `chartExistsLocally`: stat `<absChartHome>/<name>`; a stat failure
yields `("", false)`, otherwise the probed path and whether it is a
directory. -/
def chartExistsLocally (root : String) (statIsDir : String → Option Bool)
    (p : PluginState) : String × Bool :=
  let path := chartProbePath root p
  match statIsDir path with
  | none => ("", false)
  | some isDir => (path, isDir)

/-- `pullCommand`: the argument vector of the fetch invocation. -/
def pullCommand (root : String) (p : PluginState) : List String :=
  let args := ["pull", "--untar", "--untardir", absChartHome root p]
  let tail :=
    if "oci://".isPrefixOf p.chart.repo then
      [(if p.chart.repo.endsWith "/" then p.chart.repo.dropRight 1 else p.chart.repo)
        ++ "/" ++ p.chart.name]
    else if p.chart.repo ≠ "" then ["--repo", p.chart.repo, p.chart.name]
    else [p.chart.name]
  let args := args ++ tail
  if p.chart.version ≠ "" then args ++ ["--version", p.chart.version] else args

/-- The two-stage output parse at the end of `Generate`: strict
`NewResMapFromBytes` first; on failure, the permissive `kio.ByteReader`
scan, whose nonempty node list is converted by `NewResMapFromRNodeSlice`;
an empty node list fails wrapping the primary parse error. -/
def parsePhase {R N : Type} (fromBytes : String → Except String R)
    (readNodes : String → Except String (List N))
    (fromNodes : List N → Except String R) (stdout : String) : Except GenError R :=
  match fromBytes stdout with
  | Except.ok rm => Except.ok rm
  | Except.error resMapErr =>
    match readNodes stdout with
    | Except.error e => Except.error (GenError.outputRead e)
    | Except.ok nodes =>
      if nodes.length ≠ 0 then
        match fromNodes nodes with
        | Except.ok rm => Except.ok rm
        | Except.error e => Except.error (GenError.rnodeConvert e)
      else Except.error (GenError.outputParse resMapErr)

/-- The chart-location step of `Generate`: succeed when the chart exists
locally, fail with the chart-not-found error (carrying the path returned by
the existence check) when no repo is configured, and otherwise run the pull
command. -/
def locateOrPull {R N : Type} (o : Oracles R N) (ldr : Loader) (p : PluginState) :
    Except GenError Unit :=
  if (chartExistsLocally ldr.root o.statIsDir p).2 then Except.ok ()
  else if p.chart.repo = "" then
    Except.error (GenError.noRepoForPull (chartExistsLocally ldr.root o.statIsDir p).1)
  else
    match o.runHelm (pullCommand ldr.root p) with
    | Except.error e => Except.error (GenError.pullFailed e)
    | Except.ok _ => Except.ok ()

/-- The body of `Generate`, before the deferred cleanup: version gate,
chart location (with pull when absent and a repo is configured), values
reconciliation, render, and output parse. -/
def generateBody {R N : Type} (o : Oracles R N) (ldr : Loader)
    (p : PluginState) (fs : Fs) : Except GenError R × PluginState × Fs :=
  match checkHelmVersion o.runHelm with
  | Except.error e => (Except.error (GenError.versionCheck e), p, fs)
  | Except.ok _ =>
    match locateOrPull o ldr p with
    | Except.error e => (Except.error e, p, fs)
    | Except.ok _ =>
      match valuesStep ldr o.parseYaml o.mkTemp p fs with
      | (Except.error e, p', fs') => (Except.error (GenError.valuesFailed e), p', fs')
      | (Except.ok vpath, p', fs') =>
        match o.runHelm (o.renderArgs
            (absChartHome ldr.root { p' with chart.valuesFile := vpath }) vpath) with
        | Except.error e =>
          (Except.error (GenError.renderFailed e),
            { p' with chart.valuesFile := vpath }, fs')
        | Except.ok stdout =>
          (parsePhase o.fromBytes o.readNodes o.fromNodes stdout,
            { p' with chart.valuesFile := vpath }, fs')

/-- `cleanup`: remove the scratch directory when one was created. -/
def cleanup (p : PluginState) (fs : Fs) : Fs :=
  if p.tmpDir ≠ "" then { fs with tmpDirOnDisk := false } else fs

/-- `Generate` with its `defer p.cleanup()`: the body runs, then the
scratch directory is torn down on whichever exit path was taken. -/
def Generate {R N : Type} (o : Oracles R N) (ldr : Loader)
    (p : PluginState) (fs : Fs) : Except GenError R × PluginState × Fs :=
  match generateBody o ldr p fs with
  | (r, p', fs') => (r, p', cleanup p' fs')

/-! ## Path lemmas -/

theorem toList_append (a b : String) : (a ++ b).toList = a.toList ++ b.toList := rfl

theorem isAbsP_append (a b : String) (h : isAbsP a = true) : isAbsP (a ++ b) = true := by
  unfold isAbsP at h ⊢
  rw [toList_append]
  cases ha : a.toList with
  | nil => rw [ha] at h; simp at h
  | cons c t => rw [ha] at h; simpa using h

theorem isAbsP_joinP (a b : String) (h : isAbsP a = true) : isAbsP (joinP a b) = true := by
  unfold joinP
  by_cases ha : a = ""
  · exact absurd (ha ▸ h) (by decide)
  · by_cases hb : b = ""
    · simp only [if_neg ha, if_pos hb]
      exact h
    · simp only [if_neg ha, if_neg hb]
      exact isAbsP_append (a ++ "/") b (isAbsP_append a "/" h)

theorem joinP_ne_empty (a b : String) (hb : b ≠ "") : joinP a b ≠ "" := by
  unfold joinP
  by_cases ha : a = ""
  · simpa [ha] using hb
  · by_cases hbe : b = ""
    · exact absurd hbe hb
    · simp only [if_neg ha, if_neg hbe]
      intro h
      have := congrArg String.toList h
      rw [toList_append, toList_append] at this
      simp at this

/-! ## Shared concrete fixtures for witnesses and counterexamples -/

/-- An all-empty chart configuration. -/
def emptyChart : HelmChart :=
  { name := "", version := "", repo := "", valuesFile := "", additionalValuesFiles := []
    valuesInline := [], valuesMerge := "", kubeVersion := "", apiVersions := []
    debug := false }

/-- An all-empty plugin state. -/
def emptyPlugin : PluginState :=
  { globals := { chartHome := "", configHome := "" }, chart := emptyChart, tmpDir := "" }

/-- A loader rooted at `/kust` whose every load succeeds. -/
def exLoader : Loader :=
  { root := "/kust", load := fun _ => Except.ok "replicas: 1\n" }

/-- An empty file-system effect record. -/
def fsEmpty : Fs := { tmpDirOnDisk := false, written := [], loads := [] }

/-! ## C8: the version gate -/

/-- C8: the version gate scans the probe output for a semantic-version-like
token and accepts exactly major version 3: a reported version `v2.16.1`
causes an error, `3.14.0` and `v3.0.0` both pass, output with no
recognisable token causes an error, and in general acceptance is equivalent
to the leftmost version token having major part `3` after stripping a
leading `v`. -/
theorem c8_version_gate_major_three :
    checkVersionString "v2.16.1"
        = Except.error "this plugin requires helm V3 but got v2.16.1"
    ∧ checkVersionString "3.14.0" = Except.ok ()
    ∧ checkVersionString "v3.0.0" = Except.ok ()
    ∧ checkVersionString "no token here"
        = Except.error "cannot find version string in no token here"
    ∧ ∀ s : String, checkVersionString s = Except.ok ()
        ↔ ∃ v, findFrom s.toList = some v ∧ String.mk (majorOf (stripV v)) = "3" := by
  refine ⟨rfl, rfl, rfl, rfl, fun s => ?_⟩
  unfold checkVersionString
  cases h : findFrom s.toList with
  | none => simp
  | some v =>
    by_cases h3 : String.mk (majorOf (stripV v)) = "3" <;> simp [h3]

/-- Witness for C8, re-deriving two of its concrete facts by applying the
theorem. -/
theorem c8_version_gate_major_three_witness :
    checkVersionString "3.14.0" = Except.ok ()
    ∧ (checkVersionString "v3.0.0" = Except.ok ()
        ↔ ∃ v, findFrom "v3.0.0".toList = some v
            ∧ String.mk (majorOf (stripV v)) = "3") :=
  ⟨c8_version_gate_major_three.2.1, c8_version_gate_major_three.2.2.2.2 "v3.0.0"⟩

/-! ## C1: process-level settings vs the per-invocation payload -/

/-- The process-wide settings of the C1 failing input: helm enabled, with a
CLI-supplied target kube version `1.27.0`. -/
def genC1 : HelmConfig :=
  { enabled := true, command := "helm", kubeVersion := "1.27.0", apiVersions := []
    debug := false }

/-- The per-invocation payload of the C1 failing input: it also supplies
`kubeVersion`, as `1.20.0`. -/
def payloadC1 : ConfigPayload :=
  { name := some "mychart", kubeVersion := some "1.20.0" }

/-- C1 (refuted by the code): `Config` applies the process-level overrides
*before* unmarshalling the per-invocation payload, so a payload that
supplies `kubeVersion` overwrites the non-empty process-level value — the
resulting kube version is the payload's `1.20.0`, not the CLI's `1.27.0`,
contradicting the `CLI args takes precedence` comment in the code. -/
theorem c1_payload_overrides_cli_kube_version :
    genC1.kubeVersion = "1.27.0"
    ∧ payloadC1.kubeVersion = some "1.20.0"
    ∧ (Config (some genC1) exLoader (some "/tmp/kustomize-helm-x") emptyPlugin
        payloadC1).map (fun r => r.chart.kubeVersion) = Except.ok "1.20.0" :=
  ⟨rfl, rfl, rfl⟩

/-! ## C3: the effective chart directory -/

/-- C3 amended: the effective home directory is always absolute (given an
absolute loader root), `absChartHome` is `<home>/<name>-<version>` when a
version is set and `<home>` itself otherwise, and the path probed by the
local existence check appends a further `/<name>` to `absChartHome` — so
with a version it is `<home>/<name>-<version>/<name>`. -/
theorem c3_chart_directory_layout (root : String) (p : PluginState)
    (h : isAbsP root = true) :
    isAbsP (effectiveChartHome root p) = true
    ∧ isAbsP (absChartHome root p) = true
    ∧ chartProbePath root p = joinP (absChartHome root p) p.chart.name
    ∧ (p.chart.version ≠ "" →
        absChartHome root p
          = joinP (effectiveChartHome root p)
              (p.chart.name ++ "-" ++ p.chart.version))
    ∧ (p.chart.version = "" → absChartHome root p = effectiveChartHome root p) := by
  have habs : isAbsP (effectiveChartHome root p) = true := by
    unfold effectiveChartHome
    split
    · assumption
    · exact isAbsP_joinP root p.globals.chartHome h
  refine ⟨habs, ?_, rfl, fun hv => ?_, fun hv => ?_⟩
  · unfold absChartHome
    split
    · exact isAbsP_joinP _ _ habs
    · exact habs
  · unfold absChartHome
    rw [if_pos hv]
  · unfold absChartHome
    rw [if_neg (by simp [hv])]

/-- The chart reference of the C3 counterexample: name `mychart`, version
`1.0.0`, chart home `charts` under root `/kust`. -/
def pC3 : PluginState :=
  { emptyPlugin with
      globals.chartHome := "charts"
      chart.name := "mychart"
      chart.version := "1.0.0" }

/-- C3 (refuting the claim as stated): with a version specified, the path
used for the local existence check is `<home>/<name>-<version>/<name>`, not
`<home>/<name>-<version>` as the claim says. -/
theorem c3_counterexample :
    pC3.chart.version = "1.0.0"
    ∧ absChartHome "/kust" pC3 = "/kust/charts/mychart-1.0.0"
    ∧ chartProbePath "/kust" pC3 = "/kust/charts/mychart-1.0.0/mychart"
    ∧ chartProbePath "/kust" pC3 ≠ "/kust/charts/mychart-1.0.0" :=
  ⟨rfl, rfl, rfl, by decide⟩

/-- Witness for the amended C3 theorem at the counterexample input. -/
theorem c3_chart_directory_layout_witness :
    isAbsP (absChartHome "/kust" pC3) = true
    ∧ absChartHome "/kust" pC3
        = joinP (effectiveChartHome "/kust" pC3)
            (pC3.chart.name ++ "-" ++ pC3.chart.version) := by
  obtain ⟨_, h2, _, h4, _⟩ := c3_chart_directory_layout "/kust" pC3 (by decide)
  exact ⟨h2, h4 (by decide)⟩

/-! ## C4: merge-policy validation -/

theorem errIfIllegal_ok_input (p q : PluginState)
    (hok : errIfIllegalValuesMerge p = Except.ok q)
    (hne : p.chart.valuesMerge ≠ "") :
    legalMergeOptions.contains p.chart.valuesMerge = true := by
  unfold errIfIllegalValuesMerge at hok
  rw [if_neg hne] at hok
  split at hok
  · assumption
  · cases hok

theorem establishTmpDirP_fields (mkT : Option String) (p q : PluginState)
    (hok : establishTmpDirP mkT p = Except.ok q) :
    q.chart = p.chart := by
  unfold establishTmpDirP at hok
  split at hok
  · cases hok; rfl
  · split at hok
    · cases hok
    · cases hok; rfl

theorem defaultConfigHome_chart (mkT : Option String) (p r : PluginState)
    (hok : defaultConfigHome mkT p = Except.ok r) : r.chart = p.chart := by
  unfold defaultConfigHome at hok
  split at hok
  · split at hok
    · cases hok
    · next p5 heq =>
      cases hok
      exact establishTmpDirP_fields mkT p p5 heq
  · cases hok; rfl

theorem defaultChartHome_chart (p : PluginState) :
    (defaultChartHome p).chart = p.chart := by
  unfold defaultChartHome; split <;> rfl

theorem defaultValuesFile_valuesMerge (root : String) (p : PluginState) :
    (defaultValuesFile root p).chart.valuesMerge = p.chart.valuesMerge := by
  unfold defaultValuesFile; split <;> rfl

theorem validateArgs_ok_input_policy (ldr : Loader) (mkT : Option String)
    (q r : PluginState) (hok : validateArgs ldr mkT q = Except.ok r)
    (hne : q.chart.valuesMerge ≠ "") :
    legalMergeOptions.contains q.chart.valuesMerge = true := by
  unfold validateArgs at hok
  split at hok
  · cases hok
  · split at hok
    · cases hok
    · split at hok
      · cases hok
      · next p4 heq =>
        have hpol : ({ defaultValuesFile ldr.root (defaultChartHome q) with
            chart.additionalValuesFiles := ‹List String› }).chart.valuesMerge
            = q.chart.valuesMerge := by
          show (defaultValuesFile ldr.root (defaultChartHome q)).chart.valuesMerge = _
          rw [defaultValuesFile_valuesMerge, defaultChartHome_chart]
        have := errIfIllegal_ok_input _ _ heq (by rw [hpol]; exact hne)
        rw [hpol] at this
        exact this

/-- C4: configuration validation fails whenever the merge policy is set to
a value outside merge/override/replace (`Config` can never succeed then),
and an unset policy is defaulted to `override` without error.  `Config`
takes no process-running oracle at all, so no external process can be
invoked during validation. -/
theorem c4_merge_policy_validation :
    (∀ p : PluginState, p.chart.valuesMerge ≠ "" →
        legalMergeOptions.contains p.chart.valuesMerge = false →
        errIfIllegalValuesMerge p
          = Except.error "valuesMerge must be one of [merge override replace]")
    ∧ (∀ p : PluginState, p.chart.valuesMerge = "" →
        errIfIllegalValuesMerge p
          = Except.ok { p with chart.valuesMerge := valuesMergeOptionOverride })
    ∧ (∀ (gen : Option HelmConfig) (ldr : Loader) (mkT : Option String)
        (p0 : PluginState) (c : ConfigPayload) (vm : String),
        c.valuesMerge = some vm → vm ≠ "" →
        legalMergeOptions.contains vm = false →
        ∀ r, Config gen ldr mkT p0 c ≠ Except.ok r) := by
  refine ⟨fun p h1 h2 => ?_, fun p h1 => ?_, ?_⟩
  · unfold errIfIllegalValuesMerge
    rw [if_neg h1, h2]
    rfl
  · unfold errIfIllegalValuesMerge
    rw [if_pos h1]
  · intro gen ldr mkT p0 c vm hvm hne hcont r hok
    cases gen with
    | none => simp only [Config] at hok; cases hok
    | some hc =>
      simp only [Config] at hok
      split at hok
      · cases hok
      · split at hok
        · cases hok
        · have hq : (unmarshalConfig c (applyCliOverrides hc p0)).chart.valuesMerge
              = vm := by
            simp [unmarshalConfig, hvm]
          have hlegal := validateArgs_ok_input_policy ldr mkT _ r hok
            (by rw [hq]; exact hne)
          rw [hq] at hlegal
          exact Bool.noConfusion (hcont.symm.trans hlegal)

/-- The plugin state of the C4 witness with an illegal merge policy. -/
def pC4Bogus : PluginState := { emptyPlugin with chart.valuesMerge := "bogus" }

/-- The payload of the C4 witness carrying an illegal merge policy. -/
def payloadC4 : ConfigPayload := { name := some "mychart", valuesMerge := some "bogus" }

/-- Witness for C4 at concrete inputs: the illegal policy `bogus` is
rejected, the unset policy is defaulted to `override`, and `Config` cannot
succeed on a payload carrying `bogus`. -/
theorem c4_merge_policy_validation_witness :
    errIfIllegalValuesMerge pC4Bogus
      = Except.error "valuesMerge must be one of [merge override replace]"
    ∧ errIfIllegalValuesMerge emptyPlugin
      = Except.ok { emptyPlugin with chart.valuesMerge := valuesMergeOptionOverride }
    ∧ Config (some genC1) exLoader (some "/tmp/kustomize-helm-x") emptyPlugin payloadC4
      ≠ Except.ok emptyPlugin :=
  ⟨c4_merge_policy_validation.1 pC4Bogus (by decide) (by decide),
   c4_merge_policy_validation.2.1 emptyPlugin rfl,
   c4_merge_policy_validation.2.2 (some genC1) exLoader (some "/tmp/kustomize-helm-x")
     emptyPlugin payloadC4 "bogus" rfl (by decide) (by decide) emptyPlugin⟩

/-! ## C5: the two-stage output parse -/

/-- C5: whenever the strict parse of the rendered output fails, the
permissive fallback scan decides the outcome: a nonempty node list becomes
the result (the primary failure is discarded), and an empty node list fails
with an error wrapping the primary parse failure. -/
theorem c5_fallback_parse {R N : Type} (fromBytes : String → Except String R)
    (readNodes : String → Except String (List N)) (fromNodes : List N → Except String R)
    (b : String) (e : String) (hfb : fromBytes b = Except.error e) :
    (∀ ns rm, readNodes b = Except.ok ns → ns ≠ [] → fromNodes ns = Except.ok rm →
        parsePhase fromBytes readNodes fromNodes b = Except.ok rm)
    ∧ (readNodes b = Except.ok [] →
        parsePhase fromBytes readNodes fromNodes b
          = Except.error (GenError.outputParse e)) := by
  constructor
  · intro ns rm hrn hne hfn
    simp only [parsePhase, hfb, hrn, hfn]
    rw [if_pos (by simpa using hne)]
  · intro hrn
    simp [parsePhase, hfb, hrn]

/-- Witness for C5 with concrete oracles: a failing strict parse followed by
a one-node fallback yields the fallback result, and followed by an empty
fallback yields the wrapped primary failure. -/
theorem c5_fallback_parse_witness :
    parsePhase (fun _ => (Except.error "strict failed" : Except String Nat))
        (fun _ => Except.ok [(7 : Nat)]) (fun ns => Except.ok ns.length) "out"
      = Except.ok 1
    ∧ parsePhase (fun _ => (Except.error "strict failed" : Except String Nat))
        (fun _ => Except.ok ([] : List Nat)) (fun ns => Except.ok ns.length) "out"
      = Except.error (GenError.outputParse "strict failed") :=
  ⟨(c5_fallback_parse (fun _ => Except.error "strict failed")
      (fun _ => Except.ok [(7 : Nat)]) (fun ns => Except.ok ns.length)
      "out" "strict failed" rfl).1 [7] 1 rfl (by simp) rfl,
   (c5_fallback_parse (fun _ => Except.error "strict failed")
      (fun _ => Except.ok ([] : List Nat)) (fun ns => Except.ok ns.length)
      "out" "strict failed" rfl).2 rfl⟩

/-! ## C6: copy semantics when no inline values are present -/

/-- C6: when no inline values are present, the values step of `Generate`
writes into the execution environment exactly the bytes loaded from the
base values source. -/
theorem c6_copy_is_byte_identical (ldr : Loader)
    (parseYaml : String → Except String YNode) (mkT : Option String)
    (p : PluginState) (fs : Fs) (b : String)
    (hinline : p.chart.valuesInline = [])
    (hload : ldr.load p.chart.valuesFile = Except.ok b)
    (htmp : p.tmpDir ≠ "" ∨ ∃ d, mkT = some d) :
    ∃ path p' fs', valuesStep ldr parseYaml mkT p fs = (Except.ok path, p', fs')
      ∧ fs'.written = (path, b) :: fs.written := by
  unfold valuesStep
  rw [if_neg (by simp [hinline])]
  by_cases htd : p.tmpDir = ""
  · obtain htd' | ⟨d, hd⟩ := htmp
    · exact absurd htd htd'
    · simp only [copyValuesFile, loadLogged, writeValuesBytes, establishTmpDir,
        hload, htd, hd, ne_eq, not_true_eq_false, if_false]
      exact ⟨_, _, _, rfl, rfl⟩
  · simp only [copyValuesFile, loadLogged, writeValuesBytes, establishTmpDir,
      hload, ne_eq, htd, not_false_eq_true, if_true]
    exact ⟨_, _, _, rfl, rfl⟩

/-- The plugin state of the C6/C7 witnesses: chart `mychart` with a base
values file and an already-established scratch directory. -/
def pC6 : PluginState :=
  { emptyPlugin with
      chart.name := "mychart"
      chart.valuesFile := "charts/mychart/values.yaml"
      tmpDir := "/tmp/kustomize-helm-x" }

/-- Witness for C6 at concrete inputs. -/
theorem c6_copy_is_byte_identical_witness :
    ∃ path p' fs', valuesStep exLoader (fun _ => Except.error "unused") none pC6 fsEmpty
        = (Except.ok path, p', fs')
      ∧ fs'.written = (path, "replicas: 1\n") :: fsEmpty.written :=
  c6_copy_is_byte_identical exLoader (fun _ => Except.error "unused") none pC6 fsEmpty
    "replicas: 1\n" rfl rfl (Or.inl (by decide))

/-! ## C7: the replace policy ignores the base values source -/

/-- C7: with policy `replace`, `createNewMergedValuesFile` writes exactly
the serialisation of the inline payload, consults the loader for nothing
(the load log is unchanged, and the outcome does not depend on the loader
or parser oracles, which are universally quantified and absent from the
conclusion), and leaves the inline values untouched. -/
theorem c7_replace_uses_inline_only (ldr : Loader)
    (parseYaml : String → Except String YNode) (mkT : Option String)
    (p : PluginState) (fs : Fs)
    (hpolicy : p.chart.valuesMerge = valuesMergeOptionReplace)
    (htmp : p.tmpDir ≠ "" ∨ ∃ d, mkT = some d) :
    ∃ path p' fs',
      createNewMergedValuesFile ldr parseYaml mkT p fs = (Except.ok path, p', fs')
      ∧ fs'.loads = fs.loads
      ∧ fs'.written
          = (path, serializeYNode (YNode.map p.chart.valuesInline)) :: fs.written
      ∧ p'.chart.valuesInline = p.chart.valuesInline := by
  unfold createNewMergedValuesFile
  rw [if_neg (by rw [hpolicy]; decide)]
  by_cases htd : p.tmpDir = ""
  · obtain htd' | ⟨d, hd⟩ := htmp
    · exact absurd htd htd'
    · simp only [writeValuesBytes, establishTmpDir, htd, hd, ne_eq,
        not_true_eq_false, if_false]
      exact ⟨_, _, _, rfl, rfl, rfl, rfl⟩
  · simp only [writeValuesBytes, establishTmpDir, ne_eq, htd,
      not_false_eq_true, if_true]
    exact ⟨_, _, _, rfl, rfl, rfl, rfl⟩

/-- The C7 witness state: inline values present and policy `replace`. -/
def pC7 : PluginState :=
  { pC6 with
      chart.valuesInline := [("replicas", YNode.scalar "3")]
      chart.valuesMerge := "replace" }

/-- Witness for C7 at concrete inputs. -/
theorem c7_replace_uses_inline_only_witness :
    ∃ path p' fs',
      createNewMergedValuesFile exLoader (fun _ => Except.error "unused") none pC7 fsEmpty
        = (Except.ok path, p', fs')
      ∧ fs'.loads = fsEmpty.loads
      ∧ fs'.written
          = (path, serializeYNode (YNode.map pC7.chart.valuesInline)) :: fsEmpty.written
      ∧ p'.chart.valuesInline = pC7.chart.valuesInline :=
  c7_replace_uses_inline_only exLoader (fun _ => Except.error "unused") none pC7 fsEmpty
    rfl (Or.inl (by decide))

/-! ## C10: the chart-not-found error path -/

/-- C10: when the stat of the probed chart path fails, `chartExistsLocally`
returns the empty string as the path, so the chart-not-found error raised
when no repo is configured reports an empty path — not the path that was
probed (which is nonempty whenever the chart name is). -/
theorem c10_stat_failure_reports_empty_path {R N : Type} (o : Oracles R N)
    (ldr : Loader) (p : PluginState) (fs : Fs)
    (hver : checkHelmVersion o.runHelm = Except.ok ())
    (hstat : o.statIsDir (chartProbePath ldr.root p) = none)
    (hrepo : p.chart.repo = "") :
    (Generate o ldr p fs).1 = Except.error (GenError.noRepoForPull "")
    ∧ (p.chart.name ≠ "" → chartProbePath ldr.root p ≠ "") := by
  constructor
  · have hbody : (generateBody o ldr p fs).1
        = Except.error (GenError.noRepoForPull "") := by
      simp [generateBody, locateOrPull, hver, chartExistsLocally, hstat, hrepo]
    unfold Generate
    cases hg : generateBody o ldr p fs with
    | mk r rest =>
      rw [hg] at hbody
      simpa using hbody
  · intro hname
    exact joinP_ne_empty (absChartHome ldr.root p) p.chart.name hname

/-- The oracle set of the C10/C9 witnesses: the helm probe reports `v3.0.0`,
every stat fails, and every other collaborator is an inert stub. -/
def oC10 : Oracles Nat Nat :=
  { runHelm := fun args =>
      if args = ["version", "-c", "--short"] then Except.ok "v3.0.0"
      else Except.ok ""
    statIsDir := fun _ => none
    parseYaml := fun _ => Except.error "unused"
    fromBytes := fun _ => Except.error "unused"
    readNodes := fun _ => Except.ok []
    fromNodes := fun _ => Except.ok 0
    mkTemp := some "/tmp/kustomize-helm-x"
    renderArgs := fun chartPath valuesPath => ["template", chartPath, "-f", valuesPath] }

/-- The plugin state of the C10 witness: a named chart, no repo. -/
def pC10 : PluginState := { emptyPlugin with chart.name := "mychart" }

/-- Witness for C10 at concrete inputs. -/
theorem c10_stat_failure_reports_empty_path_witness :
    (Generate oC10 exLoader pC10 fsEmpty).1 = Except.error (GenError.noRepoForPull "")
    ∧ chartProbePath exLoader.root pC10 ≠ "" := by
  obtain ⟨h1, h2⟩ :=
    c10_stat_failure_reports_empty_path oC10 exLoader pC10 fsEmpty rfl rfl rfl
  exact ⟨h1, h2 (by decide)⟩

/-! ## C9: unconditional cleanup of the scratch directory

The invariant threaded below: whenever the recorded scratch directory name
is empty, no scratch directory exists on disk.  Every step of the pipeline
preserves it (the only step that puts the directory on disk also records
its nonempty name, given that `MkdirTemp` never reports success with an
empty name), and the deferred `cleanup` then removes the directory in the
nonempty case, so after `Generate` the directory is gone on every path. -/

theorem establishTmpDir_inv (mkT : Option String) (p : PluginState) (fs : Fs)
    (r : Except String Unit) (p' : PluginState) (fs' : Fs)
    (heq : establishTmpDir mkT p fs = (r, p', fs'))
    (hmk : mkT ≠ some "") (h : p.tmpDir = "" → fs.tmpDirOnDisk = false) :
    p'.tmpDir = "" → fs'.tmpDirOnDisk = false := by
  unfold establishTmpDir at heq
  by_cases htd : p.tmpDir = ""
  · rw [if_neg (by simp [htd])] at heq
    cases hmk2 : mkT with
    | none =>
      rw [hmk2] at heq
      cases heq
      exact h
    | some d =>
      rw [hmk2] at heq
      cases heq
      intro hd0
      exact absurd (by rw [hmk2]; exact congrArg some hd0) hmk
  · rw [if_pos htd] at heq
    cases heq
    exact h

theorem writeValuesBytes_inv (mkT : Option String) (b : String) (p : PluginState)
    (fs : Fs) (r : Except String String) (p' : PluginState) (fs' : Fs)
    (heq : writeValuesBytes mkT b p fs = (r, p', fs'))
    (hmk : mkT ≠ some "") (h : p.tmpDir = "" → fs.tmpDirOnDisk = false) :
    p'.tmpDir = "" → fs'.tmpDirOnDisk = false := by
  unfold writeValuesBytes at heq
  split at heq
  · next r1 p1 fs1 heq1 =>
    cases heq
    exact establishTmpDir_inv mkT p fs _ _ _ heq1 hmk h
  · next r1 p1 fs1 heq1 =>
    cases heq
    have h1 := establishTmpDir_inv mkT p fs _ _ _ heq1 hmk h
    exact h1

theorem copyValuesFile_inv (ldr : Loader) (mkT : Option String) (p : PluginState)
    (fs : Fs) (r : Except String String) (p' : PluginState) (fs' : Fs)
    (heq : copyValuesFile ldr mkT p fs = (r, p', fs'))
    (hmk : mkT ≠ some "") (h : p.tmpDir = "" → fs.tmpDirOnDisk = false) :
    p'.tmpDir = "" → fs'.tmpDirOnDisk = false := by
  unfold copyValuesFile at heq
  cases hl : loadLogged ldr p.chart.valuesFile fs with
  | mk res fs1 =>
    rw [hl] at heq
    have hfs1 : fs1.tmpDirOnDisk = fs.tmpDirOnDisk := by
      have : ((loadLogged ldr p.chart.valuesFile fs).2).tmpDirOnDisk
          = fs.tmpDirOnDisk := rfl
      rw [← this, hl]
    have h1 : p.tmpDir = "" → fs1.tmpDirOnDisk = false :=
      fun h0 => hfs1.trans (h h0)
    cases res with
    | error e => cases heq; exact h1
    | ok b => exact writeValuesBytes_inv mkT b p fs1 _ _ _ heq hmk h1

theorem replaceValuesInline_inv (ldr : Loader)
    (parseYaml : String → Except String YNode) (p : PluginState) (fs : Fs)
    (r : Except String Unit) (p' : PluginState) (fs' : Fs)
    (heq : replaceValuesInline ldr parseYaml p fs = (r, p', fs'))
    (h : p.tmpDir = "" → fs.tmpDirOnDisk = false) :
    p'.tmpDir = "" → fs'.tmpDirOnDisk = false := by
  unfold replaceValuesInline at heq
  cases hl : loadLogged ldr p.chart.valuesFile fs with
  | mk res fs1 =>
    rw [hl] at heq
    have hfs1 : fs1.tmpDirOnDisk = fs.tmpDirOnDisk := by
      have : ((loadLogged ldr p.chart.valuesFile fs).2).tmpDirOnDisk
          = fs.tmpDirOnDisk := rfl
      rw [← this, hl]
    have h1 : p.tmpDir = "" → fs1.tmpDirOnDisk = false :=
      fun h0 => hfs1.trans (h h0)
    cases res with
    | error e => cases heq; exact h1
    | ok pv =>
      cases hp : parseYaml pv with
      | error e => simp only [hp] at heq; cases heq; exact h1
      | ok ch =>
        simp only [hp] at heq
        cases hrc : replaceValuesCore p.chart.valuesMerge ch p.chart.valuesInline with
        | error e => simp only [hrc] at heq; cases heq; exact h1
        | ok m => simp only [hrc] at heq; cases heq; exact h1

theorem createNewMergedValuesFile_inv (ldr : Loader)
    (parseYaml : String → Except String YNode) (mkT : Option String)
    (p : PluginState) (fs : Fs) (r : Except String String) (p' : PluginState) (fs' : Fs)
    (heq : createNewMergedValuesFile ldr parseYaml mkT p fs = (r, p', fs'))
    (hmk : mkT ≠ some "") (h : p.tmpDir = "" → fs.tmpDirOnDisk = false) :
    p'.tmpDir = "" → fs'.tmpDirOnDisk = false := by
  unfold createNewMergedValuesFile at heq
  by_cases hstep : p.chart.valuesMerge = valuesMergeOptionMerge ∨
      p.chart.valuesMerge = valuesMergeOptionOverride
  · rw [if_pos hstep] at heq
    cases hrv : replaceValuesInline ldr parseYaml p fs with
    | mk res rest =>
      cases rest with
      | mk p1 fs1 =>
        rw [hrv] at heq
        have h1 := replaceValuesInline_inv ldr parseYaml p fs _ _ _ hrv h
        cases res with
        | error e => cases heq; exact h1
        | ok u => exact writeValuesBytes_inv mkT _ p1 fs1 _ _ _ heq hmk h1
  · rw [if_neg hstep] at heq
    exact writeValuesBytes_inv mkT _ p fs _ _ _ heq hmk h

theorem valuesStep_inv (ldr : Loader) (parseYaml : String → Except String YNode)
    (mkT : Option String) (p : PluginState) (fs : Fs)
    (r : Except String String) (p' : PluginState) (fs' : Fs)
    (heq : valuesStep ldr parseYaml mkT p fs = (r, p', fs'))
    (hmk : mkT ≠ some "") (h : p.tmpDir = "" → fs.tmpDirOnDisk = false) :
    p'.tmpDir = "" → fs'.tmpDirOnDisk = false := by
  unfold valuesStep at heq
  split at heq
  · exact createNewMergedValuesFile_inv ldr parseYaml mkT p fs _ _ _ heq hmk h
  · exact copyValuesFile_inv ldr mkT p fs _ _ _ heq hmk h

theorem generateBody_inv {R N : Type} (o : Oracles R N) (ldr : Loader)
    (p : PluginState) (fs : Fs)
    (hmk : o.mkTemp ≠ some "") (h : p.tmpDir = "" → fs.tmpDirOnDisk = false) :
    (generateBody o ldr p fs).2.1.tmpDir = "" →
      (generateBody o ldr p fs).2.2.tmpDirOnDisk = false := by
  unfold generateBody
  cases hv : checkHelmVersion o.runHelm with
  | error e => exact h
  | ok u =>
    cases hl : locateOrPull o ldr p with
    | error e => exact h
    | ok u2 =>
      cases hvs : valuesStep ldr o.parseYaml o.mkTemp p fs with
      | mk res rest =>
        cases rest with
        | mk p1 fs1 =>
          have h1 := valuesStep_inv ldr o.parseYaml o.mkTemp p fs _ _ _ hvs hmk h
          cases res with
          | error e => exact h1
          | ok vpath =>
            dsimp only
            cases hr : o.runHelm (o.renderArgs
                (absChartHome ldr.root { p1 with chart.valuesFile := vpath }) vpath) with
            | error e => exact h1
            | ok stdout => exact h1

/-- C9: on every exit path of `Generate` — version-gate failure, missing
chart, pull failure, values failure, render failure, parse failure, or
success — the scratch directory no longer exists on disk afterwards.
Hypotheses: initially no scratch directory is on disk unless one is
recorded, and `MkdirTemp` never reports success with an empty name. -/
theorem c9_cleanup_on_every_path {R N : Type} (o : Oracles R N) (ldr : Loader)
    (p : PluginState) (fs : Fs)
    (hmk : o.mkTemp ≠ some "") (h : p.tmpDir = "" → fs.tmpDirOnDisk = false) :
    ((Generate o ldr p fs).2.2).tmpDirOnDisk = false := by
  have hinv := generateBody_inv o ldr p fs hmk h
  unfold Generate
  cases hg : generateBody o ldr p fs with
  | mk r rest =>
    rw [hg] at hinv
    cases rest with
    | mk p' fs' =>
      simp only
      unfold cleanup
      by_cases htd : p'.tmpDir = ""
      · rw [if_neg (by simp [htd])]
        exact hinv htd
      · rw [if_pos htd]

/-- Witness for C9 at concrete inputs (an invocation that fails at the
chart-location step, with no scratch directory at entry). -/
theorem c9_cleanup_on_every_path_witness :
    ((Generate oC10 exLoader pC10 fsEmpty).2.2).tmpDirOnDisk = false :=
  c9_cleanup_on_every_path oC10 exLoader pC10 fsEmpty (by decide) (fun _ => rfl)

/-! ## C2: the merge and override policies -/

/-- Resolution of one key across the two sources, with `src` the overriding
source: a key present in both carries the recursive merge of the two
values, a key present in one source carries that source's value. -/
def combineO (src dest : Option YNode) : Option YNode :=
  match src, dest with
  | some s0, some d0 => some (mergeNodes s0 d0)
  | some s0, none => some s0
  | none, some d0 => some d0
  | none, none => none

theorem lookupY_append (xs ys : YMap) (k : String) :
    lookupY (xs ++ ys) k
      = match lookupY xs k with
        | some v => some v
        | none => lookupY ys k := by
  induction xs with
  | nil => simp [lookupY]
  | cons e rest ih =>
    obtain ⟨k0, v0⟩ := e
    by_cases hk : k0 = k <;> simp [lookupY, hk, ih]

theorem lookupY_mergeInto (s d : YMap) (k : String) :
    lookupY (mergeInto s d) k
      = (lookupY d k).map (fun v =>
          match lookupY s k with
          | some sv => mergeNodes sv v
          | none => v) := by
  induction d with
  | nil => simp [mergeInto, lookupY]
  | cons e rest ih =>
    obtain ⟨k0, v0⟩ := e
    by_cases hk : k0 = k
    · subst hk
      cases hs : lookupY s k0 <;> simp [mergeInto, lookupY, hs]
    · cases hs : lookupY s k0 <;> simp [mergeInto, lookupY, hk, ih, hs]

theorem lookupY_filterAbsent (s d : YMap) (k : String) :
    lookupY (s.filter (fun e => (lookupY d e.1).isNone)) k
      = if (lookupY d k).isNone then lookupY s k else none := by
  induction s with
  | nil => simp [lookupY]
  | cons e rest ih =>
    obtain ⟨k0, v0⟩ := e
    by_cases hk : k0 = k
    · subst hk
      cases hd : lookupY d k0 <;> simp [List.filter, lookupY, hd, ih]
    · cases hd : lookupY d k0 <;>
        cases hd0 : lookupY d k <;>
          simp_all [List.filter, lookupY, hk, ih]

/-- The per-key content of a merged map node: `mergeNodes` on two map nodes
resolves every key by `combineO`. -/
theorem lookupY_mergeNodes (s d : YMap) (k : String) :
    ∃ m, mergeNodes (YNode.map s) (YNode.map d) = YNode.map m
      ∧ lookupY m k = combineO (lookupY s k) (lookupY d k) := by
  refine ⟨mergeInto s d ++ s.filter (fun e => (lookupY d e.1).isNone), by
    simp [mergeNodes], ?_⟩
  rw [lookupY_append, lookupY_mergeInto, lookupY_filterAbsent]
  cases hs : lookupY s k <;> cases hd : lookupY d k <;> simp [combineO]

theorem mergeNodes_scalar_src (v : String) (d : YNode) :
    mergeNodes (YNode.scalar v) d = YNode.scalar v := by
  cases d <;> simp [mergeNodes]

/-- C2 amended: for policy `override` the inline values are the overriding
source and for `merge` the base is; a key present in only one source takes
that source's value, and a key present in both carries the recursive
`mergeNodes` merge of the two values — which is the overriding source's
value whenever that value is a scalar (or any non-map), but a recursive
combination when both values are maps. -/
theorem c2_merge_policy_semantics (base inl : YMap) (k : String) :
    (∃ m, replaceValuesCore valuesMergeOptionOverride (YNode.map base) inl
        = Except.ok m ∧ lookupY m k = combineO (lookupY inl k) (lookupY base k))
    ∧ (∃ m, replaceValuesCore valuesMergeOptionMerge (YNode.map base) inl
        = Except.ok m ∧ lookupY m k = combineO (lookupY base k) (lookupY inl k))
    ∧ (∀ v b0, lookupY inl k = some (YNode.scalar v) → lookupY base k = some b0 →
        ∀ m, replaceValuesCore valuesMergeOptionOverride (YNode.map base) inl
          = Except.ok m → lookupY m k = some (YNode.scalar v))
    ∧ (∀ v i0, lookupY base k = some (YNode.scalar v) → lookupY inl k = some i0 →
        ∀ m, replaceValuesCore valuesMergeOptionMerge (YNode.map base) inl
          = Except.ok m → lookupY m k = some (YNode.scalar v)) := by
  obtain ⟨mo, hmo, hlo⟩ := lookupY_mergeNodes inl base k
  obtain ⟨mm, hmm, hlm⟩ := lookupY_mergeNodes base inl k
  have hover : replaceValuesCore valuesMergeOptionOverride (YNode.map base) inl
      = Except.ok mo := by
    simp [replaceValuesCore, mergeOut, copyNode, valuesMergeOptionOverride, hmo]
  have hmerge : replaceValuesCore valuesMergeOptionMerge (YNode.map base) inl
      = Except.ok mm := by
    simp [replaceValuesCore, mergeOut, copyNode, valuesMergeOptionMerge,
      valuesMergeOptionOverride, hmm]
  refine ⟨⟨mo, hover, hlo⟩, ⟨mm, hmerge, hlm⟩, ?_, ?_⟩
  · intro v b0 hi hb m hm
    rw [hover] at hm
    cases hm
    rw [hlo, hi, hb]
    simp [combineO, mergeNodes_scalar_src]
  · intro v i0 hb hi m hm
    rw [hmerge] at hm
    cases hm
    rw [hlm, hi, hb]
    simp [combineO, mergeNodes_scalar_src]

/-- The base values document of the C2 counterexample:
`img: (registry: docker.io)`. -/
def baseC2 : YMap := [("img", YNode.map [("registry", YNode.scalar "docker.io")])]

/-- The inline values payload of the C2 counterexample: `img: (tag: 2)`. -/
def inlC2 : YMap := [("img", YNode.map [("tag", YNode.scalar "2")])]

/-- C2 (refuting the claim as stated): the key `img` is present in both
sources, yet under policy `override` the merged value is the recursive
combination of the two maps — it keeps base's `registry` field — and so
differs from the inline value. -/
theorem c2_counterexample :
    lookupY inlC2 "img" = some (YNode.map [("tag", YNode.scalar "2")])
    ∧ lookupY baseC2 "img" = some (YNode.map [("registry", YNode.scalar "docker.io")])
    ∧ replaceValuesCore valuesMergeOptionOverride (YNode.map baseC2) inlC2
        = Except.ok [("img", YNode.map
            [("registry", YNode.scalar "docker.io"), ("tag", YNode.scalar "2")])]
    ∧ YNode.map [("registry", YNode.scalar "docker.io"), ("tag", YNode.scalar "2")]
        ≠ YNode.map [("tag", YNode.scalar "2")] := by
  refine ⟨rfl, rfl, ?_, by simp⟩
  simp [replaceValuesCore, mergeOut, copyNode, valuesMergeOptionOverride,
    mergeNodes, mergeInto, lookupY, baseC2, inlC2, List.filter]

/-- Witness for the amended C2 theorem: a scalar-vs-scalar conflict on key
`replicas`, where the inline value wins under `override`. -/
theorem c2_merge_policy_semantics_witness :
    ∃ m, replaceValuesCore valuesMergeOptionOverride
        (YNode.map [("replicas", YNode.scalar "1")]) [("replicas", YNode.scalar "3")]
        = Except.ok m ∧ lookupY m "replicas" = some (YNode.scalar "3") := by
  obtain ⟨m, hm, _⟩ :=
    (c2_merge_policy_semantics [("replicas", YNode.scalar "1")]
      [("replicas", YNode.scalar "3")] "replicas").1
  exact ⟨m, hm,
    (c2_merge_policy_semantics [("replicas", YNode.scalar "1")]
        [("replicas", YNode.scalar "3")] "replicas").2.2.1
      "3" (YNode.scalar "1") rfl rfl m hm⟩

end HelmPlugin
